import Mathlib

/-!
Verification of the sg-property-transactions ingestion pipeline.

The development shallowly embeds the three core components of the
repository:

- the URA API client (src/scrapers/ura_scraper.py): request retry,
  JSON flattening and the condo/landed classifier;
- the PostgreSQL bulk store (src/db/db_client.py): chunked inserts with
  on-conflict-skip, per-chunk commit/rollback, and the latest-date query;
- the top-level orchestration (src/main.py): exit paths and connection
  lifecycle.

External effects are modelled explicitly: the HTTP layer is an oracle
mapping attempt numbers to outcomes, the database is a list of rows with
an abstract uniqueness key, and the wall clock is a string parameter.

One library fact is load-bearing for the insert model: after
psycopg2.extras.execute_batch, which joins the single-row INSERT
statements of each page with semicolons and executes them in one round
trip, cursor.rowcount reports the row count of the last statement
executed, not the total over the chunk. The model below reflects that.
-/

/-! ## URA API client model (src/scrapers/ura_scraper.py) -/

/-- One element of a project object at key "transaction" in the URA JSON.
Fields that may be absent from the JSON are options. -/
structure UraTransaction where
  area : Option String
  floorRange : Option String
  noOfUnits : Option String
  contractDate : Option String
  typeOfSale : Option String
  price : Option String
  propertyType : Option String
  district : Option String
  typeOfArea : Option String
  tenure : Option String
  marketSegment : Option String
deriving DecidableEq

/-- One element of the Result array in the URA JSON response. -/
structure UraProject where
  project : Option String
  street : Option String
  x : Option String
  y : Option String
  transaction : Option (List UraTransaction)
deriving DecidableEq

/-- Parsed response body. The field result is none when the key Result
is absent from the response object. -/
structure UraData where
  result : Option (List UraProject)
deriving DecidableEq

/-- A flattened transaction record, mirroring the dict literal built in
URAScraper.get_private_residential_transactions. -/
structure TxnRecord where
  project_name : String
  street : String
  x_coordinate : String
  y_coordinate : String
  area : String
  floor_range : String
  no_of_units : String
  contract_date : String
  type_of_sale : String
  price : String
  property_type : String
  district : String
  type_of_area : String
  tenure : String
  market_segment : String
  batch : Nat
  scraped_at : String
deriving DecidableEq

/-- The record dict literal of get_private_residential_transactions:
project identity fields come from the enclosing project, transaction
fields from the inner object, and every .get(key, "") defaults a missing
field to the empty string. The wall clock reading datetime.now() is the
parameter now. -/
def mkRecord (p : UraProject) (t : UraTransaction) (batch : Nat) (now : String) : TxnRecord :=
  { project_name := p.project.getD ""
    street := p.street.getD ""
    x_coordinate := p.x.getD ""
    y_coordinate := p.y.getD ""
    area := t.area.getD ""
    floor_range := t.floorRange.getD ""
    no_of_units := t.noOfUnits.getD ""
    contract_date := t.contractDate.getD ""
    type_of_sale := t.typeOfSale.getD ""
    price := t.price.getD ""
    property_type := t.propertyType.getD ""
    district := t.district.getD ""
    type_of_area := t.typeOfArea.getD ""
    tenure := t.tenure.getD ""
    market_segment := t.marketSegment.getD ""
    batch := batch
    scraped_at := now }

/-- The inner loop over project.get("transaction", []). -/
def flattenProject (batch : Nat) (now : String) (p : UraProject) : List TxnRecord :=
  (p.transaction.getD []).map (fun t => mkRecord p t batch now)

/-- Body of get_private_residential_transactions after a successful
request: return [] when the body is falsy or lacks the key Result,
otherwise flatten every project of the Result array. -/
def parseResponse (batch : Nat) (now : String) : Option UraData → List TxnRecord
  | none => []
  | some d =>
    match d.result with
    | none => []
    | some ps => ps.flatMap (flattenProject batch now)

/-- URAScraper.make_request under tenacity retry with
stop_after_attempt 3: the call is attempted up to three times and the
third failure propagates to the caller. The HTTP layer is the oracle
respond, mapping the attempt index to an outcome; an error value stands
for a raised requests exception, and the ok payload is the parsed JSON
body (none when the body is falsy). The backoff sleeps do not affect
the result and are not modelled. -/
def make_request (respond : Nat → Except String (Option UraData)) : Except String (Option UraData) :=
  match respond 0 with
  | Except.ok v => Except.ok v
  | Except.error _ =>
    match respond 1 with
    | Except.ok v => Except.ok v
    | Except.error _ => respond 2

/-- URAScraper.get_private_residential_transactions: the whole body is
wrapped in try/except Exception, so a request failure that survives the
retries is caught here and turned into the empty list. -/
def get_private_residential_transactions
    (respond : Nat → Except String (Option UraData)) (batch : Nat) (now : String) : List TxnRecord :=
  match make_request respond with
  | Except.error _ => []
  | Except.ok v => parseResponse batch now v

/-- Leading-segment test on character lists: leadSeg n l is true when n
is an initial segment of l. Building block for the Python substring
operator. -/
def leadSeg : List Char → List Char → Bool
  | [], _ => true
  | _ :: _, [] => false
  | a :: as, b :: bs => a == b && leadSeg as bs

/-- Occurrence test: hasSub n l is true when n occurs contiguously in l,
like the Python expression n in l on strings. -/
def hasSub (needle : List Char) : List Char → Bool
  | [] => leadSeg needle []
  | b :: t => leadSeg needle (b :: t) || hasSub needle t

/-- The Python expression needle in hay on strings. -/
def strContains (hay needle : String) : Bool :=
  hasSub needle.toList hay.toList

/-- The classifier test of get_all_available_transactions: uppercase the
property_type value and check it against the fixed landed lexicon. -/
def isLandedType (pt : String) : Bool :=
  (["DETACHED", "TERRACE", "BUNGALOW"]).any (fun lt => strContains pt.toUpper lt)

/-- The dictionary returned by get_all_available_transactions. -/
structure Classified where
  condo : List TxnRecord
  landed : List TxnRecord
deriving DecidableEq

/-- The classification loop of get_all_available_transactions: each
record is appended to exactly one of the two accumulating lists. -/
def classifyLoop : List TxnRecord → List TxnRecord → List TxnRecord → Classified
  | [], condo, landed => { condo := condo, landed := landed }
  | t :: rest, condo, landed =>
    if isLandedType t.property_type then classifyLoop rest condo (landed ++ [t])
    else classifyLoop rest (condo ++ [t]) landed

/-- The classification step of get_all_available_transactions, applied
to the concatenation of all fetched batches. -/
def classifyTransactions (txns : List TxnRecord) : Classified :=
  classifyLoop txns [] []

/-- URAScraper.get_all_available_transactions: fetch batches 1 through 4
sequentially (the oracle respond takes the batch number and then the
attempt index), concatenate the flattened records, and classify. The
one-second politeness sleep does not affect the result. -/
def get_all_available_transactions
    (respond : Nat → Nat → Except String (Option UraData)) (now : String) : Classified :=
  classifyTransactions
    (([1, 2, 3, 4] : List Nat).flatMap
      (fun b => get_private_residential_transactions (respond b) b now))

/-! ## Dict view of a record, for the column-list invariant -/

/-- A Python dict value as stored in the record literal: every field is
a string except batch, which is an int. -/
inductive PyVal where
  | str : String → PyVal
  | int : Nat → PyVal
deriving DecidableEq

/-- The record dict as an association list, in the key order of the dict
literal in get_private_residential_transactions (Python dicts preserve
insertion order, and txn.keys() and txn.values() iterate in that
order). -/
def toFields (r : TxnRecord) : List (String × PyVal) :=
  [("project_name", PyVal.str r.project_name),
   ("street", PyVal.str r.street),
   ("x_coordinate", PyVal.str r.x_coordinate),
   ("y_coordinate", PyVal.str r.y_coordinate),
   ("area", PyVal.str r.area),
   ("floor_range", PyVal.str r.floor_range),
   ("no_of_units", PyVal.str r.no_of_units),
   ("contract_date", PyVal.str r.contract_date),
   ("type_of_sale", PyVal.str r.type_of_sale),
   ("price", PyVal.str r.price),
   ("property_type", PyVal.str r.property_type),
   ("district", PyVal.str r.district),
   ("type_of_area", PyVal.str r.type_of_area),
   ("tenure", PyVal.str r.tenure),
   ("market_segment", PyVal.str r.market_segment),
   ("batch", PyVal.int r.batch),
   ("scraped_at", PyVal.str r.scraped_at)]

/-- txn.keys() of the record dict. -/
def recordKeys (r : TxnRecord) : List String :=
  (toFields r).map Prod.fst

/-- tuple(txn.values()) of the record dict. -/
def recordValues (r : TxnRecord) : List PyVal :=
  (toFields r).map Prod.snd

/-- The 17 column names: four project identity fields, eleven
transaction fields, batch and scraped_at. -/
def expectedColumns : List String :=
  ["project_name", "street", "x_coordinate", "y_coordinate", "area",
   "floor_range", "no_of_units", "contract_date", "type_of_sale", "price",
   "property_type", "district", "type_of_area", "tenure", "market_segment",
   "batch", "scraped_at"]

/-! ## Bulk store model (src/db/db_client.py)

The table is a list of rows and the uniqueness constraint is an abstract
key function: a row conflicts exactly when some stored row has the same
key. An INSERT with ON CONFLICT DO NOTHING therefore either appends the
row (reporting rowcount 1) or leaves the table unchanged (reporting
rowcount 0). -/

/-- One single-row INSERT ... ON CONFLICT DO NOTHING against a table
whose uniqueness constraint is the key function: returns the new table
and the statement rowcount. -/
def insertRow {Row K : Type} [DecidableEq K] (key : Row → K) (tbl : List Row) (r : Row) :
    List Row × Nat :=
  if tbl.any (fun q => decide (key q = key r)) then (tbl, 0) else (tbl ++ [r], 1)

/-- psycopg2.extras.execute_batch on one chunk: all statements execute
in order against the open transaction, and cursor.rowcount afterwards is
the rowcount of the last statement executed (the statements of a page
are sent joined by semicolons, and only the last result survives; the
final page ends with the last record of the chunk). Returns the table
after the whole chunk and that final rowcount. -/
def execBatchInsert {Row K : Type} [DecidableEq K] (key : Row → K) :
    List Row → List Row → List Row × Nat
  | tbl, [] => (tbl, 0)
  | tbl, [r] => insertRow key tbl r
  | tbl, r :: s :: rest => execBatchInsert key (insertRow key tbl r).1 (s :: rest)

/-- Fuel-indexed worker for chunking; the fuel is an upper bound on the
list length, consumed once per chunk. -/
def chunksGo {α : Type} (n : Nat) : Nat → List α → List (List α)
  | _, [] => []
  | 0, l => [l]
  | fuel + 1, x :: xs => (x :: xs.take (n - 1)) :: chunksGo n fuel (xs.drop (n - 1))

/-- The slicing loop for i in range(0, len(transactions), batch_size):
consecutive chunks of at most n records, in order. Faithful for n >= 1
(Python raises on a zero step, which is outside every use here). -/
def chunksOf {α : Type} (n : Nat) (l : List α) : List (List α) :=
  chunksGo n l.length l

/-- Result of DatabaseClient.insert_transactions: the table afterwards,
the returned count, and whether any statement was sent to the
database. -/
structure InsertResult (Row : Type) where
  table : List Row
  inserted : Nat
  issuedQuery : Bool
deriving DecidableEq

/-- The chunk loop of insert_transactions. A database error anywhere in
a chunk (modelled by the oracle fails on the 1-based chunk number) rolls
the chunk back, leaves the running total alone, and continues with the
next chunk; a successful chunk commits and adds cursor.rowcount to the
total. -/
def processChunks {Row K : Type} [DecidableEq K] (key : Row → K) (fails : Nat → Bool) :
    List (List Row) → Nat → List Row → InsertResult Row
  | [], _, tbl => { table := tbl, inserted := 0, issuedQuery := false }
  | c :: cs, i, tbl =>
    if fails i then
      let r := processChunks key fails cs (i + 1) tbl
      { table := r.table, inserted := r.inserted, issuedQuery := true }
    else
      let p := execBatchInsert key tbl c
      let r := processChunks key fails cs (i + 1) p.1
      { table := r.table, inserted := p.2 + r.inserted, issuedQuery := true }

/-- DatabaseClient.insert_transactions: empty input returns 0 before any
cursor work; otherwise the chunks are processed in order with per-chunk
commit or rollback. -/
def insert_transactions {Row K : Type} [DecidableEq K] (key : Row → K) (fails : Nat → Bool)
    (tbl : List Row) (txns : List Row) (batch_size : Nat) : InsertResult Row :=
  if txns.isEmpty then { table := tbl, inserted := 0, issuedQuery := false }
  else processChunks key fails (chunksOf batch_size txns) 1 tbl

/-- Reference evaluator: run a list of chunks with no failures,
returning the final table and the sum of the per-chunk rowcounts. -/
def runChunks {Row K : Type} [DecidableEq K] (key : Row → K) :
    List (List Row) → List Row → List Row × Nat
  | [], tbl => (tbl, 0)
  | c :: cs, tbl =>
    let p := execBatchInsert key tbl c
    let q := runChunks key cs p.1
    (q.1, p.2 + q.2)

/-- The chunks whose 1-based position the failure oracle spares. -/
def keptChunks {α : Type} (fails : Nat → Bool) : List α → Nat → List α
  | [], _ => []
  | c :: cs, i =>
    if fails i then keptChunks fails cs (i + 1) else c :: keptChunks fails cs (i + 1)

/-- Descending insertion used to model ORDER BY date_column DESC. -/
def insertDesc {D : Type} [LinearOrder D] (x : D) : List D → List D
  | [] => [x]
  | y :: ys => if y ≤ x then x :: y :: ys else y :: insertDesc x ys

/-- The rows sorted in descending order, as the database returns them
for ORDER BY date_column DESC. -/
def sortDesc {D : Type} [LinearOrder D] (l : List D) : List D :=
  l.foldr insertDesc []

/-- DatabaseClient.get_latest_transaction_date: SELECT date_column FROM
table ORDER BY date_column DESC LIMIT 1, then fetchone — the head of the
descending ordering, or none on an empty table. The date column values
are any linearly ordered type. -/
def get_latest_transaction_date {D : Type} [LinearOrder D] (rows : List D) : Option D :=
  (sortDesc rows).head?

/-! ## Orchestration model (src/main.py) -/

/-- What a run of main() did: its exit code, whether the database
connection was successfully acquired, and whether close() ran. -/
structure MainOutcome where
  exitCode : Nat
  connAcquired : Bool
  connClosed : Bool
deriving DecidableEq

/-- main(): Config.validate() raises ValueError before any client is
built; DatabaseClient acquires the connection in its constructor and a
connect failure propagates before self.conn is assigned; any exception
out of the scrape-and-store phase is caught by the blanket handler,
which returns 1 without reaching the db_client.close() call; only the
normal path closes the connection and returns 0. The stats-only branch
has the same shape and is covered by pipelineOk. -/
def mainRun (configValid connectOk pipelineOk : Bool) : MainOutcome :=
  if !configValid then { exitCode := 1, connAcquired := false, connClosed := false }
  else if !connectOk then { exitCode := 1, connAcquired := false, connClosed := false }
  else if !pipelineOk then { exitCode := 1, connAcquired := true, connClosed := false }
  else { exitCode := 0, connAcquired := true, connClosed := true }

/-! ## Concrete sample data for witnesses -/

/-- A transaction object as in the spec scenario: area, contractDate,
price and propertyType present, the rest absent. -/
def sampleTxn : UraTransaction :=
  { area := some "90", floorRange := none, noOfUnits := none,
    contractDate := some "20240115", typeOfSale := none,
    price := some "1800000", propertyType := some "Condominium",
    district := none, typeOfArea := none, tenure := none,
    marketSegment := none }

/-- The Skyline project of the spec scenario, with one transaction. -/
def sampleProj : UraProject :=
  { project := some "Skyline", street := some "Orchard Rd",
    x := some "123", y := some "456", transaction := some [sampleTxn] }

/-- An HTTP oracle that answers every attempt with a body whose Result
array holds the one sample project. -/
def sampleRespond : Nat → Except String (Option UraData) :=
  fun _ => Except.ok (some { result := some [sampleProj] })

/-! ## Lemmas about the substring test -/

/-- leadSeg tests for an initial segment. -/
theorem leadSeg_iff : ∀ (p l : List Char), leadSeg p l = true ↔ ∃ t, l = p ++ t := by
  intro p
  induction p with
  | nil =>
    intro l
    simp [leadSeg]
  | cons a as ih =>
    intro l
    cases l with
    | nil =>
      simp [leadSeg]
    | cons b bs =>
      simp only [leadSeg, Bool.and_eq_true, beq_iff_eq, ih]
      constructor
      · rintro ⟨rfl, t, rfl⟩
        exact ⟨t, rfl⟩
      · rintro ⟨t, ht⟩
        injection ht with h1 h2
        exact ⟨h1.symm, t, h2⟩

/-- hasSub tests for a contiguous occurrence, the semantics of the
Python substring operator. -/
theorem hasSub_iff : ∀ (needle hay : List Char),
    hasSub needle hay = true ↔ ∃ pre post, hay = pre ++ needle ++ post := by
  intro needle hay
  induction hay with
  | nil =>
    simp only [hasSub, leadSeg_iff]
    constructor
    · rintro ⟨t, ht⟩
      exact ⟨[], t, by simpa using ht⟩
    · rintro ⟨pre, post, h⟩
      refine ⟨post, ?_⟩
      cases pre with
      | nil => simpa using h
      | cons c cs => simp at h
  | cons b t ih =>
    simp only [hasSub, Bool.or_eq_true, ih, leadSeg_iff]
    constructor
    · rintro (⟨u, hu⟩ | ⟨pre, post, h⟩)
      · exact ⟨[], u, by simpa using hu⟩
      · exact ⟨b :: pre, post, by simp [h]⟩
    · rintro ⟨pre, post, h⟩
      cases pre with
      | nil => exact Or.inl ⟨post, by simpa using h⟩
      | cons c cs =>
        injection h with h1 h2
        exact Or.inr ⟨cs, post, h2⟩

/-! ## Lemmas about the classifier -/

/-- The classification loop appends to its accumulators the two filters
of the remaining input. -/
theorem classifyLoop_eq : ∀ (txns condo landed : List TxnRecord),
    classifyLoop txns condo landed =
      { condo := condo ++ txns.filter (fun t => !isLandedType t.property_type),
        landed := landed ++ txns.filter (fun t => isLandedType t.property_type) } := by
  intro txns
  induction txns with
  | nil =>
    intro condo landed
    simp [classifyLoop]
  | cons t rest ih =>
    intro condo landed
    by_cases h : isLandedType t.property_type
    · simp [classifyLoop, h, ih, List.filter_cons]
    · simp [classifyLoop, h, ih, List.filter_cons]

/-- C1: the classification step inside get_all_available_transactions
assigns each record to exactly one of condo and landed (the two outputs
are the two complementary filters of the input, and their concatenation
is a permutation of the input, so nothing is dropped or duplicated), and
membership in landed is decided exactly by whether the uppercased
property_type contains one of DETACHED, TERRACE, BUNGALOW as a
substring; otherwise the record goes to condo. -/
theorem classify_assigns_each_record_once (txns : List TxnRecord) :
    (classifyTransactions txns).condo = txns.filter (fun t => !isLandedType t.property_type) ∧
    (classifyTransactions txns).landed = txns.filter (fun t => isLandedType t.property_type) ∧
    List.Perm ((classifyTransactions txns).condo ++ (classifyTransactions txns).landed) txns ∧
    (∀ t : TxnRecord, t ∈ (classifyTransactions txns).landed ↔
      t ∈ txns ∧ isLandedType t.property_type = true) ∧
    (∀ t : TxnRecord, t ∈ (classifyTransactions txns).condo ↔
      t ∈ txns ∧ isLandedType t.property_type = false) ∧
    (∀ pt : String, isLandedType pt = true ↔
      ∃ s, s ∈ (["DETACHED", "TERRACE", "BUNGALOW"] : List String) ∧
        ∃ pre post, pt.toUpper.toList = pre ++ s.toList ++ post) := by
  have hc : (classifyTransactions txns).condo =
      txns.filter (fun t => !isLandedType t.property_type) := by
    simp [classifyTransactions, classifyLoop_eq]
  have hl : (classifyTransactions txns).landed =
      txns.filter (fun t => isLandedType t.property_type) := by
    simp [classifyTransactions, classifyLoop_eq]
  refine ⟨hc, hl, ?_, ?_, ?_, ?_⟩
  · rw [hc, hl]
    have hperm := List.filter_append_perm (fun t => !isLandedType t.property_type) txns
    simpa [Bool.not_not] using hperm
  · intro t
    rw [hl]
    simp [List.mem_filter]
  · intro t
    rw [hc]
    simp [List.mem_filter]
  · intro pt
    simp [isLandedType, List.any_eq_true, strContains, hasSub_iff]

/-! ## C2: failure handling of the batch fetch -/

/-- C2 counterexample: with an HTTP layer that fails every attempt, the
retries are exhausted inside make_request, whose failure does reach
get_private_residential_transactions — but that function catches it and
returns the empty list normally, instead of propagating the failure to
its caller as the claim states. -/
theorem single_batch_fetch_swallows_failure :
    make_request (fun _ => Except.error "timeout") = Except.error "timeout" ∧
    get_private_residential_transactions (fun _ => Except.error "timeout") 1
      "2025-01-01T00:00:00" = [] := by
  exact ⟨rfl, rfl⟩

/-- C2 amended: when every attempt of one batch fails, the exhausted
retry failure surfaces from make_request, is caught inside
get_private_residential_transactions itself (which returns zero
records), and get_all_available_transactions — which performs no
catching of its own — still processes the remaining batches, with the
failed batch contributing the empty list. -/
theorem failed_batch_yields_zero_records_and_run_continues
    (respond : Nat → Nat → Except String (Option UraData)) (now : String) (b : Nat)
    (hfail : ∀ k, ∃ e, respond b k = Except.error e) :
    get_private_residential_transactions (respond b) b now = [] ∧
    (∃ e, make_request (respond b) = Except.error e) ∧
    get_all_available_transactions respond now =
      classifyTransactions
        (([1, 2, 3, 4] : List Nat).flatMap
          (fun i => if i = b then []
            else get_private_residential_transactions (respond i) i now)) := by
  obtain ⟨e0, h0⟩ := hfail 0
  obtain ⟨e1, h1⟩ := hfail 1
  obtain ⟨e2, h2⟩ := hfail 2
  have hmk : make_request (respond b) = Except.error e2 := by
    simp [make_request, h0, h1, h2]
  have hpriv : get_private_residential_transactions (respond b) b now = [] := by
    simp [get_private_residential_transactions, hmk]
  refine ⟨hpriv, ⟨e2, hmk⟩, ?_⟩
  have hcomp : ∀ i : Nat,
      (if i = b then ([] : List TxnRecord)
        else get_private_residential_transactions (respond i) i now) =
      get_private_residential_transactions (respond i) i now := by
    intro i
    by_cases hi : i = b
    · subst hi
      simp [hpriv]
    · simp [hi]
  simp only [get_all_available_transactions, hcomp]

/-- C2 witness: a concrete two-level oracle whose batch 2 always times
out; the amended theorem applies and batch 2 produces zero records. -/
theorem failed_batch_yields_zero_records_witness :
    get_private_residential_transactions
      ((fun b _ => if b = 2 then Except.error "timeout"
        else Except.ok (some { result := some [] })) 2) 2 "2025-01-01T00:00:00" = [] :=
  (failed_batch_yields_zero_records_and_run_continues
    (fun b _ => if b = 2 then Except.error "timeout"
      else Except.ok (some { result := some [] }))
    "2025-01-01T00:00:00" 2 (fun _ => ⟨"timeout", rfl⟩)).1

/-! ## C5: flattening of a successful response -/

/-- C5: on a successful request whose body carries a Result array ps,
the batch fetch returns exactly the concatenation over the projects of
their transaction arrays — sum of the M_i counts — and each flat record
is mkRecord of its enclosing project, which copies the project identity
fields and defaults every missing source field to the empty string. -/
theorem fetch_flattens_projects
    (respond : Nat → Except String (Option UraData)) (batch : Nat) (now : String)
    (d : UraData) (ps : List UraProject)
    (hreq : make_request respond = Except.ok (some d)) (hres : d.result = some ps) :
    get_private_residential_transactions respond batch now =
      ps.flatMap (flattenProject batch now) ∧
    (get_private_residential_transactions respond batch now).length =
      (ps.map (fun p => (p.transaction.getD []).length)).sum ∧
    (∀ p, flattenProject batch now p =
      (p.transaction.getD []).map (fun t => mkRecord p t batch now)) ∧
    (∀ p t,
      (mkRecord p t batch now).project_name = p.project.getD "" ∧
      (mkRecord p t batch now).street = p.street.getD "" ∧
      (mkRecord p t batch now).x_coordinate = p.x.getD "" ∧
      (mkRecord p t batch now).y_coordinate = p.y.getD "" ∧
      (p.project = none → (mkRecord p t batch now).project_name = "") ∧
      (p.street = none → (mkRecord p t batch now).street = "") ∧
      (p.x = none → (mkRecord p t batch now).x_coordinate = "") ∧
      (p.y = none → (mkRecord p t batch now).y_coordinate = "") ∧
      (t.area = none → (mkRecord p t batch now).area = "") ∧
      (t.floorRange = none → (mkRecord p t batch now).floor_range = "") ∧
      (t.noOfUnits = none → (mkRecord p t batch now).no_of_units = "") ∧
      (t.contractDate = none → (mkRecord p t batch now).contract_date = "") ∧
      (t.typeOfSale = none → (mkRecord p t batch now).type_of_sale = "") ∧
      (t.price = none → (mkRecord p t batch now).price = "") ∧
      (t.propertyType = none → (mkRecord p t batch now).property_type = "") ∧
      (t.district = none → (mkRecord p t batch now).district = "") ∧
      (t.typeOfArea = none → (mkRecord p t batch now).type_of_area = "") ∧
      (t.tenure = none → (mkRecord p t batch now).tenure = "") ∧
      (t.marketSegment = none → (mkRecord p t batch now).market_segment = "")) := by
  have heq : get_private_residential_transactions respond batch now =
      ps.flatMap (flattenProject batch now) := by
    simp [get_private_residential_transactions, hreq, parseResponse, hres]
  refine ⟨heq, ?_, fun p => rfl, ?_⟩
  · rw [heq, List.length_flatMap]
    have hfun : (List.length ∘ flattenProject batch now) =
        fun p : UraProject => (p.transaction.getD []).length := by
      funext p
      simp [flattenProject]
    rw [hfun]
  · intro p t
    refine ⟨rfl, rfl, rfl, rfl, ?_, ?_, ?_, ?_, ?_, ?_, ?_, ?_, ?_, ?_, ?_, ?_, ?_, ?_, ?_⟩ <;>
      (intro h; simp [mkRecord, h])

/-- C5 witness: the flattening theorem applied to the sample oracle,
whose response holds one project with one transaction. -/
theorem fetch_flattens_projects_witness :
    get_private_residential_transactions sampleRespond 1 "2025-01-01T00:00:00" =
      [sampleProj].flatMap (flattenProject 1 "2025-01-01T00:00:00") ∧
    (get_private_residential_transactions sampleRespond 1 "2025-01-01T00:00:00").length =
      (([sampleProj]).map (fun p => (p.transaction.getD []).length)).sum :=
  ⟨(fetch_flattens_projects sampleRespond 1 "2025-01-01T00:00:00"
      { result := some [sampleProj] } [sampleProj] rfl rfl).1,
   (fetch_flattens_projects sampleRespond 1 "2025-01-01T00:00:00"
      { result := some [sampleProj] } [sampleProj] rfl rfl).2.1⟩

/-! ## Lemmas about the chunked insert loop -/

/-- The chunk loop with a failure oracle behaves exactly like the
failure-free evaluator run on the spared chunks alone: a failing chunk
is rolled back without any effect on the table or the running total, and
every later chunk is still attempted against the committed state. -/
theorem processChunks_eq {Row K : Type} [DecidableEq K] (key : Row → K) (fails : Nat → Bool) :
    ∀ (cs : List (List Row)) (i : Nat) (tbl : List Row),
      processChunks key fails cs i tbl =
        { table := (runChunks key (keptChunks fails cs i) tbl).1,
          inserted := (runChunks key (keptChunks fails cs i) tbl).2,
          issuedQuery := !cs.isEmpty } := by
  intro cs
  induction cs with
  | nil =>
    intro i tbl
    simp [processChunks, keptChunks, runChunks]
  | cons c cs ih =>
    intro i tbl
    by_cases hf : fails i
    · simp [processChunks, keptChunks, hf, ih]
    · simp [processChunks, keptChunks, runChunks, hf, ih]

/-- C4 counterexample: table initially empty, records [1, 2, 3, 4] with
batch_size 2, and the second chunk raising. The first chunk inserts two
rows (its resulting table is [1, 2]), yet the call returns 1, because
cursor.rowcount after execute_batch is the rowcount of the last
statement of the chunk — so the returned total is not the sum of the
inserted counts of the successful chunks, which is 2. -/
theorem chunk_failure_total_not_sum_of_inserted :
    (insert_transactions (fun n : Nat => n) (fun i => decide (i = 2)) [] [1, 2, 3, 4] 2).table
      = [1, 2] ∧
    (insert_transactions (fun n : Nat => n) (fun i => decide (i = 2)) [] [1, 2, 3, 4] 2).inserted
      = 1 ∧
    (execBatchInsert (fun n : Nat => n) [] [1, 2]).1.length = 2 ∧
    (insert_transactions (fun n : Nat => n) (fun i => decide (i = 2)) [] [1, 2, 3, 4] 2).inserted
      ≠ 2 := by
  decide

/-- C4 amended: if a chunk raises, it is rolled back (no effect on the
table), every later chunk is still attempted, and the returned total is
the sum over the successful chunks of the per-chunk reported count —
the rowcount of the last statement of each chunk, not the number of
rows the chunk actually inserted. Stated via the failure-free evaluator
runChunks on the spared chunks keptChunks. -/
theorem insert_isolates_failed_chunks {Row K : Type} [DecidableEq K] (key : Row → K)
    (fails : Nat → Bool) (tbl : List Row) (txns : List Row) (bs : Nat) (hbs : 1 ≤ bs) :
    insert_transactions key fails tbl txns bs =
      { table := (runChunks key (keptChunks fails (chunksOf bs txns) 1) tbl).1,
        inserted := (runChunks key (keptChunks fails (chunksOf bs txns) 1) tbl).2,
        issuedQuery := !(chunksOf bs txns).isEmpty } := by
  by_cases h : txns.isEmpty = true
  · have hnil : txns = [] := by
      cases txns with
      | nil => rfl
      | cons a l => simp [List.isEmpty] at h
    subst hnil
    simp [insert_transactions, chunksOf, chunksGo, keptChunks, runChunks]
  · simp [insert_transactions, h, processChunks_eq]

/-- C4 witness: the amended theorem applied at the counterexample input,
with the batch-size bound discharged. -/
theorem insert_isolates_failed_chunks_witness :
    insert_transactions (fun n : Nat => n) (fun i => decide (i = 2)) [] [1, 2, 3, 4] 2 =
      { table := (runChunks (fun n : Nat => n)
          (keptChunks (fun i => decide (i = 2)) (chunksOf 2 [1, 2, 3, 4]) 1) []).1,
        inserted := (runChunks (fun n : Nat => n)
          (keptChunks (fun i => decide (i = 2)) (chunksOf 2 [1, 2, 3, 4]) 1) []).2,
        issuedQuery := !(chunksOf 2 [1, 2, 3, 4]).isEmpty } :=
  insert_isolates_failed_chunks (fun n : Nat => n) (fun i => decide (i = 2)) [] [1, 2, 3, 4] 2
    (by decide)

/-- C3: evaluation showing the returned count is not the number of rows
actually inserted. Two fresh records with distinct keys go into an empty
table in one chunk: both rows end up stored, but the call returns 1,
the rowcount of the last INSERT of the chunk. This contradicts the
claim and the docstring of insert_transactions. -/
theorem insert_count_undercounts_actual_rows :
    (insert_transactions (fun n : Nat => n) (fun _ => false) [] [10, 20] 1000).table
      = [10, 20] ∧
    (insert_transactions (fun n : Nat => n) (fun _ => false) [] [10, 20] 1000).table.length
      = 2 ∧
    (insert_transactions (fun n : Nat => n) (fun _ => false) [] [10, 20] 1000).inserted
      = 1 ∧
    (insert_transactions (fun n : Nat => n) (fun _ => false) [] [10, 20] 1000).inserted
      ≠ 2 := by
  decide

/-- C6: evaluation of the double-insert scenario. Re-running the same
two distinct records against the table produced by the first call
inserts nothing, returns 0 and leaves the table unchanged — the
idempotence half of the claim holds — but the first call returns 1,
not len(records) = 2, again because of the rowcount of execute_batch. -/
theorem reinsert_idempotent_but_first_count_wrong :
    (insert_transactions (fun n : Nat => n) (fun _ => false) [] [7, 8] 1000).table = [7, 8] ∧
    (insert_transactions (fun n : Nat => n) (fun _ => false)
      ((insert_transactions (fun n : Nat => n) (fun _ => false) [] [7, 8] 1000).table)
      [7, 8] 1000).inserted = 0 ∧
    (insert_transactions (fun n : Nat => n) (fun _ => false)
      ((insert_transactions (fun n : Nat => n) (fun _ => false) [] [7, 8] 1000).table)
      [7, 8] 1000).table =
      (insert_transactions (fun n : Nat => n) (fun _ => false) [] [7, 8] 1000).table ∧
    (insert_transactions (fun n : Nat => n) (fun _ => false) [] [7, 8] 1000).inserted = 1 ∧
    (insert_transactions (fun n : Nat => n) (fun _ => false) [] [7, 8] 1000).inserted
      ≠ ([7, 8] : List Nat).length := by
  decide

/-- C8: with an empty record list, insert_transactions returns 0, sends
no statement to the database, and leaves the table untouched, for every
key function, failure oracle, prior table and batch size. -/
theorem insert_empty_returns_zero_no_query {Row K : Type} [DecidableEq K] (key : Row → K)
    (fails : Nat → Bool) (tbl : List Row) (bs : Nat) :
    insert_transactions key fails tbl [] bs =
      { table := tbl, inserted := 0, issuedQuery := false } :=
  rfl

/-! ## Lemmas about the latest-date query -/

/-- The head of the descending ordering of a non-empty row list is a row
value that bounds every row from above. -/
theorem sortDesc_head_is_max {D : Type} [LinearOrder D] :
    ∀ l : List D, l ≠ [] →
      ∃ m, (sortDesc l).head? = some m ∧ m ∈ l ∧ ∀ x ∈ l, x ≤ m := by
  intro l
  induction l with
  | nil =>
    intro h
    exact absurd rfl h
  | cons a t ih =>
    intro _
    cases t with
    | nil =>
      refine ⟨a, rfl, by simp, by simp⟩
    | cons b u =>
      obtain ⟨m, hm, hmem, hball⟩ := ih (by simp)
      have hs : sortDesc (a :: b :: u) = insertDesc a (sortDesc (b :: u)) := rfl
      cases hsd : sortDesc (b :: u) with
      | nil =>
        rw [hsd] at hm
        simp at hm
      | cons m0 rest =>
        rw [hsd] at hm
        have hm0 : m0 = m := by
          simpa using hm
        subst hm0
        by_cases hma : m0 ≤ a
        · refine ⟨a, ?_, by simp, ?_⟩
          · rw [hs, hsd]
            simp [insertDesc, hma]
          · intro x hx
            rcases List.mem_cons.mp hx with rfl | hx2
            · exact le_refl x
            · exact le_trans (hball x hx2) hma
        · refine ⟨m0, ?_, List.mem_cons_of_mem a hmem, ?_⟩
          · rw [hs, hsd]
            simp [insertDesc, hma]
          · intro x hx
            rcases List.mem_cons.mp hx with rfl | hx2
            · exact le_of_not_le hma
            · exact hball x hx2

/-- C7: get_latest_transaction_date returns none on an empty table, and
on a non-empty table returns a stored date that is the maximum of the
date column. -/
theorem latest_transaction_date_is_max {D : Type} [LinearOrder D] (rows : List D) :
    (rows = [] → get_latest_transaction_date rows = none) ∧
    (rows ≠ [] →
      ∃ m, get_latest_transaction_date rows = some m ∧ m ∈ rows ∧ ∀ x ∈ rows, x ≤ m) := by
  constructor
  · rintro rfl
    rfl
  · intro h
    exact sortDesc_head_is_max rows h

/-- C7 witness: the spec example, with the dates 2023-01-01, 2024-06-15
and 2023-11-02 written as the numerals 20230101, 20240615, 20231102
(the ISO date order is the numeric order of these keys): the maximum
2024-06-15 is returned. -/
theorem latest_transaction_date_is_max_witness :
    get_latest_transaction_date [20230101, 20240615, 20231102] = some 20240615 ∧
    (∃ m, get_latest_transaction_date [20230101, 20240615, 20231102] = some m ∧
      m ∈ [20230101, 20240615, 20231102] ∧
      ∀ x ∈ [20230101, 20240615, 20231102], x ≤ m) :=
  ⟨by decide, (latest_transaction_date_is_max [20230101, 20240615, 20231102]).2 (by decide)⟩

/-! ## C9: connection lifecycle of main() -/

/-- C9 counterexample: on the run where configuration and connection
succeed but the pipeline raises a fatal error, the connection was
acquired, the process exits with code 1, and close() was never called —
the claim that every exit path releases the acquired connection fails
on this path. -/
theorem fatal_error_path_skips_close :
    (mainRun true true false).connAcquired = true ∧
    (mainRun true true false).connClosed = false ∧
    (mainRun true true false).exitCode = 1 := by
  decide

/-- C9 amended: the connection is closed exactly on the fully successful
run; it is acquired exactly when configuration and connection succeed;
the exit code is 0 exactly on the fully successful run. In particular a
configuration error exits before any connection exists, while a fatal
error after acquisition returns exit code 1 without calling close(). -/
theorem connection_close_only_on_success_path (c k p : Bool) :
    (mainRun c k p).connClosed = (c && k && p) ∧
    (mainRun c k p).connAcquired = (c && k) ∧
    (mainRun c k p).exitCode = (if c && k && p then 0 else 1) := by
  cases c <;> cases k <;> cases p <;> exact ⟨rfl, rfl, rfl⟩

/-! ## C10: the fixed column list of every record -/

/-- C10: every record produced by get_private_residential_transactions
presents, as a Python dict, exactly the 17 keys of expectedColumns in
that fixed order; hence within any chunk of such records the column
list derived from the first record equals the key list of every record
of the chunk, and every value tuple has the same length as that column
list. -/
theorem records_have_fixed_column_list
    (respond : Nat → Except String (Option UraData)) (batch : Nat) (now : String) (bs : Nat)
    (hbs : 1 ≤ bs) :
    (∀ r, r ∈ get_private_residential_transactions respond batch now →
      recordKeys r = expectedColumns) ∧
    (∀ c, c ∈ chunksOf bs (get_private_residential_transactions respond batch now) →
      ∀ r0, c.head? = some r0 → ∀ r, r ∈ c →
        recordKeys r = recordKeys r0 ∧
        (recordValues r).length = (recordKeys r0).length) :=
  ⟨fun _ _ => rfl, fun _ _ _ _ _ _ => ⟨rfl, rfl⟩⟩

/-- C10 witness: the theorem applied to the sample oracle, the record it
yields, and the one chunk containing it. -/
theorem records_have_fixed_column_list_witness :
    recordKeys (mkRecord sampleProj sampleTxn 1 "2025-01-01T00:00:00") = expectedColumns ∧
    (recordValues (mkRecord sampleProj sampleTxn 1 "2025-01-01T00:00:00")).length =
      (recordKeys (mkRecord sampleProj sampleTxn 1 "2025-01-01T00:00:00")).length := by
  have h := records_have_fixed_column_list sampleRespond 1 "2025-01-01T00:00:00" 1000
    (by decide)
  refine ⟨h.1 (mkRecord sampleProj sampleTxn 1 "2025-01-01T00:00:00") ?_,
    (h.2 [mkRecord sampleProj sampleTxn 1 "2025-01-01T00:00:00"] ?_
      (mkRecord sampleProj sampleTxn 1 "2025-01-01T00:00:00") ?_
      (mkRecord sampleProj sampleTxn 1 "2025-01-01T00:00:00") ?_).2⟩
  · decide
  · decide
  · decide
  · decide
